import Mathlib

/-!
Verification of the huzaa-relay TURN relay engine: a shallow embedding of the
frame codec (`ReadFrame`/`WriteFrame`), the authentication check, the session
registry and teardown operations, the port pool, and the `ChanReader` byte
source, each translated from the Go sources, together with theorems about the
properties stated in the specification.

Bytes are modelled as `Nat` (values below 256 where it matters), byte streams
as `List Nat`, and the random source of the port pool as a function
`Nat → Nat` whose draws are reduced mod 2^16 (the pool reads two random bytes
per probe and interprets them as a big-endian `uint16`).
-/

/-! ### Frame codec (internal/turnrelay framing source) -/

/-- Message type constants from the framing source. -/
def MsgRegisterDownload : Nat := 0x01

def MsgRegisterUpload : Nat := 0x02

def MsgPortAlloc : Nat := 0x03

def MsgData : Nat := 0x04

def MsgError : Nat := 0x05

def MsgEOF : Nat := 0x06

/-- Modelled from the spec: the auth message-type constants `MsgAuth` and
`MsgAuthOk` are referenced by the relay source but their declarations are not
among the provided files; the spec lists them as two further message types.
No claim depends on their numeric values. -/
def MsgAuth : Nat := 0x07

/-- Modelled from the spec: see `MsgAuth`. -/
def MsgAuthOk : Nat := 0x08

/-- Big-endian 32-bit decode of four bytes (`binary.BigEndian.Uint32`). -/
def beUint32 (b0 b1 b2 b3 : Nat) : Nat :=
  ((b0 * 256 + b1) * 256 + b2) * 256 + b3

/-- Big-endian 32-bit encode into four bytes (`binary.BigEndian.PutUint32`). -/
def be32Bytes (n : Nat) : List Nat :=
  [n / 16777216 % 256, n / 65536 % 256, n / 256 % 256, n % 256]

/-- Hard payload-size ceiling of the codec: 2 MiB. -/
def maxFramePayload : Nat := 2 * 1024 * 1024

/-- Errors `ReadFrame` can surface: `eof` (`io.EOF` on an empty stream),
`unexpectedEOF` (stream ended inside a header or payload), and `shortBuffer`
(`io.ErrShortBuffer`, the oversized-payload rejection). -/
inductive FrameErr where
  | eof
  | unexpectedEOF
  | shortBuffer
  deriving DecidableEq

/-- Outcome of `ReadFrame`: either a decoded `(type, payload)` plus the
unconsumed remainder of the stream, or an error plus the unconsumed
remainder. -/
inductive ReadOutcome where
  | ok (msgType : Nat) (payload : List Nat) (rest : List Nat)
  | err (e : FrameErr) (rest : List Nat)
  deriving DecidableEq

/-- Model of `ReadFrame` from the framing source: read a 5-byte header (1-byte type,
4-byte big-endian length), reject lengths above 2 MiB without touching the
payload bytes, otherwise read exactly `length` payload bytes.  `io.ReadFull`
consumes everything it managed to read before a short-read error, so the
error branches for truncated streams carry an empty remainder. -/
def ReadFrame (s : List Nat) : ReadOutcome :=
  match s with
  | t :: b0 :: b1 :: b2 :: b3 :: rest =>
    let ln := beUint32 b0 b1 b2 b3
    if maxFramePayload < ln then .err .shortBuffer rest
    else if rest.length < ln then .err .unexpectedEOF []
    else .ok t (rest.take ln) (rest.drop ln)
  | [] => .err .eof []
  | _ => .err .unexpectedEOF []

/-- Model of `WriteFrame` from the framing source: emit the 5-byte header then the
payload.  The payload length is truncated to `uint32` exactly as
`uint32(len(payload))` does. -/
def WriteFrame (msgType : Nat) (payload : List Nat) : List Nat :=
  msgType :: be32Bytes (payload.length % 4294967296) ++ payload

theorem beUint32_be32Bytes (n : Nat) (h : n < 4294967296) :
    beUint32 (n / 16777216 % 256) (n / 65536 % 256) (n / 256 % 256) (n % 256) = n := by
  unfold beUint32
  omega

/-- Claim C2: for every input stream whose 5-byte header declares a payload
length greater than 2 MiB, `ReadFrame` fails with the oversized-payload error
(`io.ErrShortBuffer`) and consumes no bytes beyond the 5-byte header: the
remainder it reports is exactly the stream after the header, untouched (no
payload read, no resynchronization). -/
theorem claim_C2_readFrame_oversized (t b0 b1 b2 b3 : Nat) (rest : List Nat)
    (h : maxFramePayload < beUint32 b0 b1 b2 b3) :
    ReadFrame (t :: b0 :: b1 :: b2 :: b3 :: rest) = .err .shortBuffer rest := by
  simp [ReadFrame, h]

/-- Witness for C2 at a concrete oversized header: declared length
0xFFFFFFFF with two trailing bytes left untouched. -/
theorem claim_C2_witness :
    maxFramePayload < beUint32 255 255 255 255 ∧
      ReadFrame (4 :: 255 :: 255 :: 255 :: 255 :: [9, 9]) = .err .shortBuffer [9, 9] :=
  ⟨by decide, claim_C2_readFrame_oversized 4 255 255 255 255 [9, 9] (by decide)⟩

/-- Claim C3: for every message type (any byte) and every payload of length at
most 2 MiB, writing the frame with `WriteFrame` and then reading the produced
bytes with `ReadFrame` returns exactly the original `(type, payload)` pair
with no error, leaving any trailing bytes unconsumed. -/
theorem claim_C3_frame_roundtrip (t : Nat) (payload rest : List Nat)
    (hlen : payload.length ≤ maxFramePayload) :
    ReadFrame (WriteFrame t payload ++ rest) = .ok t payload rest := by
  have hlt : payload.length < 4294967296 := by
    have : maxFramePayload < 4294967296 := by decide
    omega
  have hmod : payload.length % 4294967296 = payload.length := Nat.mod_eq_of_lt hlt
  have hdec := beUint32_be32Bytes payload.length hlt
  simp only [WriteFrame, be32Bytes, hmod, List.cons_append, List.append_assoc]
  simp only [ReadFrame, hdec]
  have hnot : ¬ maxFramePayload < payload.length := Nat.not_lt.mpr hlen
  have hge : ¬ (payload ++ rest).length < payload.length := by
    simp [List.length_append]
  simp only [List.nil_append, hnot, if_false, hge, List.take_left, List.drop_left]

/-- Witness for C3 at a concrete frame: type 4, payload `[1, 2, 3]`, one
trailing byte. -/
theorem claim_C3_witness :
    ([1, 2, 3] : List Nat).length ≤ maxFramePayload ∧
      ReadFrame (WriteFrame 4 [1, 2, 3] ++ [7]) = .ok 4 [1, 2, 3] [7] :=
  ⟨by decide, claim_C3_frame_roundtrip 4 [1, 2, 3] [7] (by decide)⟩

/-! ### Authentication (relay source, `handleBotConnection` first-frame logic)

Usernames and secrets are byte strings, modelled as `List Nat`.  The
credential table `users` built by `NewRelay` is an association list from
username bytes to secret bytes. -/

/-- Replies the relay can give to the first frame of a bot connection:
`authOk` (an `AuthOk` frame), or an `Error` frame with the given message. -/
inductive AuthReply where
  | authOk
  | errorFrame (msg : String)
  deriving DecidableEq

/-- Credential lookup `r.users[username]` (Go map access with ok-flag). -/
def lookupCred (users : List (List Nat × List Nat)) (username : List Nat) :
    Option (List Nat) :=
  (users.find? (fun cred => cred.1 == username)).map (·.2)

/-- The credential table `NewRelay` builds from the configured user list:
entries with an empty username are skipped. -/
def buildUserSecrets (turnUsers : List (List Nat × List Nat)) :
    List (List Nat × List Nat) :=
  turnUsers.filter (fun u => !(u.1 == []))

/-- Model of `subtle.ConstantTimeCompare`: 0 on length mismatch, otherwise 1 exactly
when all bytes agree. -/
def constantTimeCompare (x y : List Nat) : Nat :=
  if x.length = y.length then
    (if (x.zip y).all (fun ab => ab.1 == ab.2) then 1 else 0)
  else 0

/-- Number of byte-comparison steps `subtle.ConstantTimeCompare` performs:
zero on a length mismatch (it returns immediately), otherwise one step per
byte regardless of content (no early exit inside the loop). -/
def ctCompareSteps (x y : List Nat) : Nat :=
  if x.length = y.length then x.length else 0

/-- The credential check of `handleBotConnection` (the
`if !ok || subtle.ConstantTimeCompare(...) != 1` step), with its
byte-comparison step count made explicit.  Go's `||` short-circuits: when the
username lookup misses, `ConstantTimeCompare` is never invoked, so that
branch performs zero comparison steps. -/
def authStep (users : List (List Nat × List Nat)) (username secret : List Nat) :
    AuthReply × Nat :=
  match lookupCred users username with
  | none => (.errorFrame "auth failed", 0)
  | some expectedSecret =>
    if constantTimeCompare expectedSecret secret = 1 then
      (.authOk, ctCompareSteps expectedSecret secret)
    else
      (.errorFrame "auth failed", ctCompareSteps expectedSecret secret)

/-- Handling of the first frame of a bot connection (relay source): the frame
must be `MsgAuth`; its payload is a 4-byte big-endian username length, the
username, then the secret.  Length checks are performed in `uint32`
arithmetic as the Go code does. -/
def handleFirstFrame (users : List (List Nat × List Nat)) (msgType : Nat)
    (payload : List Nat) : AuthReply :=
  if msgType ≠ MsgAuth then .errorFrame "auth required"
  else match payload with
  | p0 :: p1 :: p2 :: p3 :: _ =>
    let unLen := beUint32 p0 p1 p2 p3
    if unLen = 0 ∨ payload.length % 4294967296 < (4 + unLen) % 4294967296 ∨
        256 < unLen then
      .errorFrame "auth failed"
    else
      let username := (payload.drop 4).take unLen
      let secret := payload.drop (4 + unLen)
      (authStep users username secret).1
  | _ => .errorFrame "auth failed"

/-- Whether a reply is an `Error` frame. -/
def AuthReply.isError : AuthReply → Bool
  | .errorFrame _ => true
  | .authOk => false

/-- Claim C4: with an empty configured credential set (the table `NewRelay`
builds from an empty `turn_users` list), every first frame — any message type
and any payload, hence every `Auth` payload, username and secret — is
answered with an `Error` frame and never with `AuthOk`: authentication is
fail-closed. -/
theorem claim_C4_fail_closed (msgType : Nat) (payload : List Nat) :
    (handleFirstFrame (buildUserSecrets []) msgType payload).isError = true := by
  unfold handleFirstFrame buildUserSecrets
  by_cases hm : msgType ≠ MsgAuth
  · simp [hm, AuthReply.isError]
  · simp only [hm, if_false]
    match payload with
    | [] => rfl
    | [_] => rfl
    | [_, _] => rfl
    | [_, _, _] => rfl
    | p0 :: p1 :: p2 :: p3 :: rest =>
      simp only []
      split
      · rfl
      · simp [authStep, lookupCred, AuthReply.isError]

/-- Demo credential table for concrete authentication checks:
one configured user, username "bob", secret "s3cr3t" (as bytes). -/
def demoUsers : List (List Nat × List Nat) :=
  [([98, 111, 98], [115, 51, 99, 114, 51, 116])]

/-- Counterexample to claim C5 as stated: with the credential table
`demoUsers`, the unknown username "alice" and the known username "bob" with a
wrong secret of the same length as the real one both get the identical
"auth failed" error message, but the unknown-username attempt performs 0
byte-comparison steps while the wrong-secret attempt performs 6: the
username-lookup miss short-circuits and skips the constant-time compare, so
the latency profiles are not identical. -/
theorem claim_C5_counterexample :
    (authStep demoUsers [97, 108, 105, 99, 101] [0, 0, 0, 0, 0, 0]).1 =
        .errorFrame "auth failed" ∧
      (authStep demoUsers [98, 111, 98] [0, 0, 0, 0, 0, 0]).1 =
        .errorFrame "auth failed" ∧
      (authStep demoUsers [97, 108, 105, 99, 101] [0, 0, 0, 0, 0, 0]).2 = 0 ∧
      (authStep demoUsers [98, 111, 98] [0, 0, 0, 0, 0, 0]).2 = 6 := by
  decide

/-- Claim C5 as amended: the secret comparison, when it runs, is constant
time with respect to secret content (the step count depends only on the
secret's length), and every rejection — unknown username or wrong secret —
carries the same "auth failed" error message; but the username-lookup miss
short-circuits (Go's `||`), skipping the constant-time compare entirely, so
an unknown-username attempt performs zero comparison steps and its latency
profile differs from a known-username wrong-secret attempt. -/
theorem claim_C5_auth_timing (users : List (List Nat × List Nat))
    (u s1 s2 s : List Nat) (hlen : s1.length = s2.length) :
    (authStep users u s1).2 = (authStep users u s2).2 ∧
      ((authStep users u s).1 ≠ .authOk →
        (authStep users u s).1 = .errorFrame "auth failed") ∧
      (lookupCred users u = none → (authStep users u s).2 = 0) := by
  refine ⟨?_, ?_, ?_⟩
  · cases h : lookupCred users u with
    | none => simp [authStep, h]
    | some exp =>
      simp only [authStep, h]
      split <;> split <;> simp [ctCompareSteps, hlen]
  · intro hne
    cases h : lookupCred users u with
    | none => simp [authStep, h]
    | some exp =>
      simp only [authStep, h] at hne ⊢
      split at hne
      · simp_all
      · simp_all [authStep, h]
  · intro h
    simp [authStep, h]

/-- Witness for the amended C5 at concrete inputs: unknown username "alice"
against `demoUsers`, two six-byte candidate secrets. -/
theorem claim_C5_witness :
    ([0, 0, 0, 0, 0, 0] : List Nat).length = ([1, 1, 1, 1, 1, 1] : List Nat).length ∧
      ((authStep demoUsers [97, 108, 105, 99, 101] [0, 0, 0, 0, 0, 0]).2 =
          (authStep demoUsers [97, 108, 105, 99, 101] [1, 1, 1, 1, 1, 1]).2 ∧
        ((authStep demoUsers [97, 108, 105, 99, 101] [2, 2]).1 ≠ .authOk →
          (authStep demoUsers [97, 108, 105, 99, 101] [2, 2]).1 =
            .errorFrame "auth failed") ∧
        (lookupCred demoUsers [97, 108, 105, 99, 101] = none →
          (authStep demoUsers [97, 108, 105, 99, 101] [0, 0, 0, 0, 0, 0]).2 = 0)) :=
  ⟨by decide,
    claim_C5_auth_timing demoUsers [97, 108, 105, 99, 101]
      [0, 0, 0, 0, 0, 0] [1, 1, 1, 1, 1, 1] [2, 2] (by decide)⟩

/-! ### Port pool (relay source, `portPool`) -/

/-- The `fmt.Errorf("no free port in %d-%d", ...)` failure of `allocate`. -/
inductive PoolErr where
  | noFreePort (mn mx : Nat)
  deriving DecidableEq

/-- The port pool: the configured inclusive range and the set of ports
currently handed out (`used`, a duplicate-free list standing for the Go
map-set). -/
structure PortPool where
  min : Nat
  max : Nat
  used : List Nat
  deriving DecidableEq

/-- Model of `newPortPool`: rejects a non-positive lower bound or an inverted range,
otherwise starts with an empty used-set. -/
def newPortPool (minPort maxPort : Nat) : Option PortPool :=
  if minPort = 0 ∨ maxPort < minPort then none
  else some ⟨minPort, maxPort, []⟩

/-- The candidate port computed from one 16-bit random draw `v`:
`p.min + (int(Uint16(b)) % (p.max - p.min + 1))`. -/
def portCandidate (p : PortPool) (v : Nat) : Nat :=
  p.min + v % (p.max - p.min + 1)

/-- The probing loop of `allocate`: up to `fuel` probes, the `i`-th probe
drawing the 16-bit value `rnd i % 65536`; a candidate already in the
used-set is skipped, a free one is recorded and returned; exhausting the
probes yields the no-free-port error with the pool unchanged. -/
def allocLoop (p : PortPool) (rnd : Nat → Nat) : Nat → Nat → Except PoolErr Nat × PortPool
  | _, 0 => (.error (.noFreePort p.min p.max), p)
  | i, fuel + 1 =>
    let port := portCandidate p (rnd i % 65536)
    if port ∈ p.used then allocLoop p rnd (i + 1) fuel
    else (.ok port, { p with used := port :: p.used })

/-- Model of `portPool.allocate`: 100 randomized probes. -/
def PortPool.allocate (p : PortPool) (rnd : Nat → Nat) : Except PoolErr Nat × PortPool :=
  allocLoop p rnd 0 100

/-- Model of `portPool.release`: unconditionally remove the port from the used-set
(releasing an absent port is a no-op). -/
def PortPool.release (p : PortPool) (port : Nat) : PortPool :=
  { p with used := p.used.filter (fun q => q ≠ port) }

/-! ### Session, registry and teardown (relay and session sources)

Go sessions are heap objects referenced from the registry; the registry is
modelled as an association list keyed by the bot-supplied identifier, and
each session carries a ghost `tag` (creation order) so that effects on a
particular session object can be named.  Side effects that the claims speak
about — firing the `Done` cancellation signal, closing the two byte queues,
releasing a port — are reported as an explicit event list alongside the new
state. -/

/-- One session record.  `doneClosed` is the state of the single-fire
cancellation signal `Done`; `botStreamClosed` / `userConnClosed` record
whether the two chunk queues have been closed. -/
structure Session where
  tag : Nat
  id : String
  kind : String
  filename : String
  port : Nat
  doneClosed : Bool
  botStreamClosed : Bool
  userConnClosed : Bool
  deriving DecidableEq

/-- Model of `NewSession`: fresh queues, cancellation signal not yet fired. -/
def NewSession (tag : Nat) (id kind filename : String) (port : Nat) : Session :=
  { tag := tag, id := id, kind := kind, filename := filename, port := port,
    doneClosed := false, botStreamClosed := false, userConnClosed := false }

/-- Model of `Session.Close` (session source): under the session mutex, close `Done`
only if it is not already closed.  The boolean reports whether this call
actually fired the signal. -/
def Session.Close (s : Session) : Session × Bool :=
  if s.doneClosed then (s, false) else ({ s with doneClosed := true }, true)

/-- Effects the teardown operations can have. -/
inductive Event where
  | closedDone (tag : Nat)
  | releasedPort (port : Nat)
  | closedBotStream (tag : Nat)
  | closedUserConn (tag : Nat)
  deriving DecidableEq

/-- The relay's shared mutable state: the session registry and the port
pool.  `nextTag` is the ghost creation counter. -/
structure RelayState where
  sessions : List (String × Session)
  pool : PortPool
  nextTag : Nat
  deriving DecidableEq

/-- Registry lookup `r.sessions[sessionID]`. -/
def lookupSession (m : List (String × Session)) (k : String) : Option Session :=
  (m.find? (fun e => e.1 == k)).map (·.2)

/-- Registry write `r.sessions[sessionID] = sess` (map overwrite). -/
def insertSession (m : List (String × Session)) (k : String) (s : Session) :
    List (String × Session) :=
  (k, s) :: m.filter (fun e => !(e.1 == k))

/-- Registry delete `delete(r.sessions, sessionID)`. -/
def deleteSession (m : List (String × Session)) (k : String) :
    List (String × Session) :=
  m.filter (fun e => !(e.1 == k))

/-- Model of `removeSession` (relay source): under the registry lock, look the session
up and delete its entry; if it was present, close it and, when its port is
positive, release the port back to the pool. -/
def removeSession (st : RelayState) (id : String) : RelayState × List Event :=
  match lookupSession st.sessions id with
  | none => (st, [])
  | some sess =>
    ({ st with
        sessions := deleteSession st.sessions id,
        pool := if 0 < sess.port then st.pool.release sess.port else st.pool },
      (if sess.Close.2 then [.closedDone sess.tag] else []) ++
        (if 0 < sess.port then [.releasedPort sess.port] else []))

/-- Effect of `sess.Close()` on the session registered under `id` (the loops hold a
reference to the registry's session object, so the closed state is visible
through the registry). -/
def closeSessionById (st : RelayState) (id : String) : RelayState × List Event :=
  match lookupSession st.sessions id with
  | none => (st, [])
  | some sess =>
    ({ st with sessions := insertSession st.sessions id sess.Close.1 },
      if sess.Close.2 then [.closedDone sess.tag] else [])

/-- Effect of `close(sess.BotStream)` on the session registered under `id`. -/
def closeBotStreamById (st : RelayState) (id : String) : RelayState × List Event :=
  match lookupSession st.sessions id with
  | none => (st, [])
  | some sess =>
    ({ st with
        sessions := insertSession st.sessions id { sess with botStreamClosed := true } },
      [.closedBotStream sess.tag])

/-- Teardown performed by `relayDownloadToUser` on a frame read error or an
unexpected frame type: only `sess.Close()`. -/
def downloadErrTeardown (st : RelayState) (id : String) : RelayState × List Event :=
  closeSessionById st id

/-- Teardown performed by `relayDownloadToUser` on the explicit `MsgEOF`
frame: `close(sess.BotStream)` then `sess.Close()`. -/
def downloadEOFTeardown (st : RelayState) (id : String) : RelayState × List Event :=
  let r1 := closeBotStreamById st id
  let r2 := closeSessionById r1.1 id
  (r2.1, r1.2 ++ r2.2)

/-- Teardown performed by `listenDCCForSession` when `Accept` fails:
`removeSession`. -/
def dccAcceptFailTeardown (st : RelayState) (id : String) : RelayState × List Event :=
  removeSession st id

/-- Teardown performed by `relayUploadFromUser` when the user-to-bot queue
closes or a frame write to the bot fails: `removeSession`. -/
def uploadTeardown (st : RelayState) (id : String) : RelayState × List Event :=
  removeSession st id

/-- Model of `allocateDCCPort` (relay source): allocate a port, create and register a
Session under the bot-supplied identifier (a plain map write, displacing any
existing entry), then open the per-session listener; if the bind fails
(`listenOk = false`), release the just-allocated port and delete the
just-written registry entry. -/
def allocateDCCPort (st : RelayState) (rnd : Nat → Nat)
    (sessionID kind filename : String) (listenOk : Bool) :
    Option Nat × RelayState × List Event :=
  match st.pool.allocate rnd with
  | (.error _, pool') => (none, { st with pool := pool' }, [])
  | (.ok port, pool') =>
    let sess := NewSession st.nextTag sessionID kind filename port
    let sessions1 := insertSession st.sessions sessionID sess
    if listenOk then
      (some port,
        { sessions := sessions1, pool := pool', nextTag := st.nextTag + 1 }, [])
    else
      (none,
        { sessions := deleteSession sessions1 sessionID,
          pool := pool'.release port, nextTag := st.nextTag + 1 },
        [.releasedPort port])

/-! ### Port pool lemmas and claims C7, C8 -/

theorem portCandidate_range (p : PortPool) (v : Nat) (h : p.min ≤ p.max) :
    p.min ≤ portCandidate p v ∧ portCandidate p v ≤ p.max := by
  unfold portCandidate
  have hpos : 0 < p.max - p.min + 1 := Nat.succ_pos _
  have := Nat.mod_lt v hpos
  omega

theorem allocLoop_ok_spec (p : PortPool) (rnd : Nat → Nat) :
    ∀ fuel i port p', allocLoop p rnd i fuel = (.ok port, p') →
      port ∉ p.used ∧ p'.used = port :: p.used ∧ p'.min = p.min ∧ p'.max = p.max ∧
        ∃ v, port = portCandidate p v := by
  intro fuel
  induction fuel with
  | zero => intro i port p' h; simp [allocLoop] at h
  | succ n ih =>
    intro i port p' h
    unfold allocLoop at h
    by_cases hmem : portCandidate p (rnd i % 65536) ∈ p.used
    · simp only [hmem, if_true] at h
      exact ih (i + 1) port p' h
    · simp only [hmem, if_false] at h
      obtain ⟨h1, h2⟩ := Prod.mk.injEq .. ▸ h
      cases h1
      cases h2
      exact ⟨hmem, rfl, rfl, rfl, rnd i % 65536, rfl⟩

theorem allocLoop_all_used (p : PortPool) (rnd : Nat → Nat)
    (hall : ∀ v, portCandidate p v ∈ p.used) :
    ∀ fuel i, allocLoop p rnd i fuel = (.error (.noFreePort p.min p.max), p) := by
  intro fuel
  induction fuel with
  | zero => intro i; rfl
  | succ n ih => intro i; unfold allocLoop; simp only [hall, if_true]; exact ih (i + 1)

/-- Claim C7: the port pool never hands out a port that is currently in the
used-set — a successful `allocate` returns a port not previously handed out
(and still unreleased), records it, and stays inside the configured range —
and over a single-port range `min = max = m` the first `allocate` succeeds
with `m`, a second `allocate` fails (whatever its random draws) leaving the
pool unchanged, and after `release m` an `allocate` succeeds again. -/
theorem claim_C7_pool_no_double_allocation (p : PortPool) (rnd : Nat → Nat)
    (port : Nat) (p' : PortPool) (m : Nat) (rnd2 rnd3 rnd4 : Nat → Nat)
    (h : p.allocate rnd = (.ok port, p')) :
    (port ∉ p.used ∧ p'.used = port :: p.used ∧
      (p.min ≤ p.max → p.min ≤ port ∧ port ≤ p.max)) ∧
      (PortPool.allocate ⟨m, m, []⟩ rnd2 = (.ok m, ⟨m, m, [m]⟩) ∧
        PortPool.allocate ⟨m, m, [m]⟩ rnd3 =
          (.error (.noFreePort m m), ⟨m, m, [m]⟩) ∧
        (PortPool.release ⟨m, m, [m]⟩ m).allocate rnd4 = (.ok m, ⟨m, m, [m]⟩)) := by
  constructor
  · obtain ⟨h1, h2, _, _, v, hv⟩ := allocLoop_ok_spec p rnd 100 0 port p' h
    refine ⟨h1, h2, fun hle => ?_⟩
    exact hv ▸ portCandidate_range p v hle
  · have hcand : ∀ (rn : Nat → Nat) i, portCandidate ⟨m, m, []⟩ (rn i % 65536) = m := by
      intro rn i; simp [portCandidate, Nat.mod_one]
    have hcand1 : ∀ (rn : Nat → Nat) i, portCandidate ⟨m, m, [m]⟩ (rn i % 65536) = m := by
      intro rn i; simp [portCandidate, Nat.mod_one]
    refine ⟨?_, ?_, ?_⟩
    · unfold PortPool.allocate allocLoop
      simp [hcand rnd2 0, portCandidate, Nat.mod_one]
    · have hall : ∀ v, portCandidate ⟨m, m, [m]⟩ v ∈ PortPool.used ⟨m, m, [m]⟩ := by
        intro v; simp [portCandidate, Nat.mod_one]
      exact allocLoop_all_used ⟨m, m, [m]⟩ rnd3 hall 100 0
    · have hrel : PortPool.release ⟨m, m, [m]⟩ m = ⟨m, m, []⟩ := by
        simp [PortPool.release]
      rw [hrel]
      unfold PortPool.allocate allocLoop
      simp [portCandidate, Nat.mod_one]

/-- Witness for C7 at a concrete pool: range `[1, 1]`, first allocation from
the empty used-set. -/
theorem claim_C7_witness :
    PortPool.allocate ⟨1, 1, []⟩ (fun _ => 5) = (.ok 1, ⟨1, 1, [1]⟩) ∧
      ((1 ∉ PortPool.used ⟨1, 1, []⟩ ∧ PortPool.used ⟨1, 1, [1]⟩ = [1] ∧
        (1 ≤ 1 → 1 ≤ 1 ∧ 1 ≤ 1)) ∧
        (PortPool.allocate ⟨7, 7, []⟩ (fun _ => 3) = (.ok 7, ⟨7, 7, [7]⟩) ∧
          PortPool.allocate ⟨7, 7, [7]⟩ (fun _ => 9) =
            (.error (.noFreePort 7 7), ⟨7, 7, [7]⟩) ∧
          (PortPool.release ⟨7, 7, [7]⟩ 7).allocate (fun _ => 11) =
            (.ok 7, ⟨7, 7, [7]⟩))) :=
  ⟨by rfl,
    claim_C7_pool_no_double_allocation ⟨1, 1, []⟩ (fun _ => 5) 1 ⟨1, 1, [1]⟩ 7
      (fun _ => 3) (fun _ => 9) (fun _ => 11) (by rfl)⟩

/-- Number of draws `v < n` satisfying `q` (recursive counter used to reason
about the candidate distribution without evaluating huge lists). -/
def cntUpTo (q : Nat → Bool) : Nat → Nat
  | 0 => 0
  | n + 1 => cntUpTo q n + (if q n then 1 else 0)

/-- How many of the 65536 equally likely 16-bit draws map to `port`:
the exact relative probability (times 2^16) that one probe of `allocate`
proposes `port`. -/
def candidateCount (p : PortPool) (port : Nat) : Nat :=
  (List.range 65536).countP (fun v => decide (portCandidate p v = port))

theorem countP_range_eq_cntUpTo (q : Nat → Bool) :
    ∀ n, (List.range n).countP q = cntUpTo q n := by
  intro n
  induction n with
  | zero => rfl
  | succ n ih =>
    rw [List.range_succ, List.countP_append, ih]
    simp [cntUpTo, List.countP_cons]

theorem cntUpTo_mod3 (r : Nat) (hr : r < 3) :
    ∀ n, cntUpTo (fun v => decide (v % 3 = r)) n = (n + (2 - r)) / 3 := by
  intro n
  induction n with
  | zero => simp [cntUpTo]; omega
  | succ n ih =>
    have step : cntUpTo (fun v => decide (v % 3 = r)) (n + 1) =
        cntUpTo (fun v => decide (v % 3 = r)) n + (if n % 3 = r then 1 else 0) := by
      simp [cntUpTo]
    rw [step, ih]
    by_cases h : n % 3 = r
    · rw [if_pos h]
      omega
    · rw [if_neg h]
      omega

/-- Counterexample to claim C8 as stated: over the pool with range `[1, 3]`,
the candidate map `min + v % 3` sends 21846 of the 65536 equally likely
16-bit draws to port 1 but only 21845 to port 2, so the ports of the range
are not candidates with equal probability (modulo bias). -/
theorem claim_C8_counterexample :
    candidateCount ⟨1, 3, []⟩ 1 = 21846 ∧ candidateCount ⟨1, 3, []⟩ 2 = 21845 ∧
      candidateCount ⟨1, 3, []⟩ 1 ≠ candidateCount ⟨1, 3, []⟩ 2 := by
  have key : ∀ q r, q = 1 + r → r < 3 →
      candidateCount ⟨1, 3, []⟩ q = (65536 + (2 - r)) / 3 := by
    intro q r hq hr
    unfold candidateCount
    have hpred : (fun v => decide (portCandidate ⟨1, 3, []⟩ v = q)) =
        (fun v => decide (v % 3 = r)) := by
      funext v
      apply decide_eq_decide.mpr
      subst hq
      unfold portCandidate
      simp only []
      omega
    rw [hpred, countP_range_eq_cntUpTo, cntUpTo_mod3 r hr]
  have h1 : candidateCount ⟨1, 3, []⟩ 1 = 21846 := by
    rw [key 1 0 rfl (by omega)]
  have h2 : candidateCount ⟨1, 3, []⟩ 2 = 21845 := by
    rw [key 2 1 rfl (by omega)]
  exact ⟨h1, h2, by omega⟩

theorem allocLoop_error_spec (p : PortPool) (rnd : Nat → Nat) :
    ∀ fuel i e p', allocLoop p rnd i fuel = (.error e, p') →
      e = .noFreePort p.min p.max ∧ p' = p := by
  intro fuel
  induction fuel with
  | zero =>
    intro i e p' h
    unfold allocLoop at h
    obtain ⟨h1, h2⟩ := Prod.mk.injEq .. ▸ h
    exact ⟨(Except.error.injEq .. ▸ h1).symm, h2.symm⟩
  | succ n ih =>
    intro i e p' h
    unfold allocLoop at h
    by_cases hmem : portCandidate p (rnd i % 65536) ∈ p.used
    · simp only [hmem, if_true] at h
      exact ih (i + 1) e p' h
    · simp only [hmem, if_false] at h
      exact absurd (Prod.mk.injEq .. ▸ h).1 (by simp)

theorem allocLoop_congr (p : PortPool) (rnd rnd' : Nat → Nat) :
    ∀ fuel i, (∀ j, i ≤ j → j < i + fuel → rnd j = rnd' j) →
      allocLoop p rnd i fuel = allocLoop p rnd' i fuel := by
  intro fuel
  induction fuel with
  | zero => intro i _; rfl
  | succ n ih =>
    intro i hag
    have hi : rnd i = rnd' i := hag i (le_refl i) (by omega)
    unfold allocLoop
    rw [hi]
    by_cases hmem : portCandidate p (rnd' i % 65536) ∈ p.used
    · simp only [hmem, if_true]
      exact ih (i + 1) (fun j h1 h2 => hag j (by omega) (by omega))
    · simp only [hmem, if_false]

/-- Claim C8 as amended: each probe of `allocate` derives its candidate from
a fresh 16-bit draw of the cryptographically strong source as
`min + draw % (max - min + 1)`, so every port of the range is a possible
candidate whenever the range size is at most 2^16 (`claim_C8_counterexample`
shows the probabilities carry a modulo bias rather than being exactly
equal); the loop is bounded — the result depends only on the first 100
draws — and on exhausting its probes it fails with the no-free-port-in-range
error, leaving the pool unchanged. -/
theorem claim_C8_bounded_probing (p : PortPool) (rnd rnd' : Nat → Nat)
    (e : PoolErr) (p' : PortPool) (q : Nat)
    (hagree : ∀ j, j < 100 → rnd j = rnd' j)
    (herr : p.allocate rnd = (.error e, p'))
    (hq1 : p.min ≤ q) (hq2 : q ≤ p.max) (hrange : p.max - p.min + 1 ≤ 65536) :
    (e = .noFreePort p.min p.max ∧ p' = p) ∧
      p.allocate rnd = p.allocate rnd' ∧
      (q - p.min < 65536 ∧ portCandidate p ((q - p.min) % 65536) = q) := by
  refine ⟨allocLoop_error_spec p rnd 100 0 e p' herr, ?_, ?_⟩
  · exact allocLoop_congr p rnd rnd' 100 0 (fun j _ h2 => hagree j (by omega))
  · have hlt : q - p.min < p.max - p.min + 1 := by omega
    have hsmall : q - p.min < 65536 := by omega
    refine ⟨hsmall, ?_⟩
    unfold portCandidate
    rw [Nat.mod_eq_of_lt hsmall, Nat.mod_eq_of_lt hlt]
    omega

/-- Witness for the amended C8: the exhausted single-port pool `[7, 7]` with
port 7 already out, two random sources agreeing on their first 100 draws. -/
theorem claim_C8_witness :
    (PoolErr.noFreePort 7 7 = PoolErr.noFreePort 7 7 ∧
        (⟨7, 7, [7]⟩ : PortPool) = ⟨7, 7, [7]⟩) ∧
      PortPool.allocate ⟨7, 7, [7]⟩ (fun _ => 0) =
        PortPool.allocate ⟨7, 7, [7]⟩ (fun j => if j < 100 then 0 else 1) ∧
      (7 - 7 < 65536 ∧ portCandidate ⟨7, 7, [7]⟩ ((7 - 7) % 65536) = 7) :=
  claim_C8_bounded_probing ⟨7, 7, [7]⟩ (fun _ => 0) (fun j => if j < 100 then 0 else 1)
    (.noFreePort 7 7) ⟨7, 7, [7]⟩ 7
    (fun j hj => by simp [hj]) (by rfl) (by decide) (by decide) (by decide)

/-! ### Registry lemmas and claims C6, C9, C1 -/

theorem lookupSession_deleteSession (m : List (String × Session)) (k : String) :
    lookupSession (deleteSession m k) k = none := by
  induction m with
  | nil => rfl
  | cons e t ih =>
    by_cases h : e.1 == k
    · simp only [deleteSession, List.filter, h] at ih ⊢
      exact ih
    · simp only [deleteSession, List.filter, h, lookupSession, List.find?,
        Bool.not_false, Bool.not_true] at ih ⊢
      simp only [h, ih]

theorem lookupSession_insertSession (m : List (String × Session)) (k : String)
    (s : Session) : lookupSession (insertSession m k s) k = some s := by
  simp [insertSession, lookupSession, List.find?]

/-- Claim C6: session teardown is idempotent.  A second `removeSession` on
the same identifier is a no-op: it has no effects (no port release, no
signal fire) and leaves the state unchanged, so across both invocations the
port is released at most once; `Session.Close` on an already-closed session
does not fire the signal again and leaves the session unchanged; and a first
teardown of a live session with a positive port releases that port exactly
once and fires the cancellation signal exactly once. -/
theorem removeSession_not_found (st : RelayState) (id : String)
    (h : lookupSession st.sessions id = none) : removeSession st id = (st, []) := by
  unfold removeSession
  rw [h]

theorem claim_C6_teardown_idempotent (st : RelayState) (id : String) (s : Session)
    (hs : lookupSession st.sessions id = some s) (hopen : s.doneClosed = false)
    (hport : 0 < s.port) :
    ((removeSession (removeSession st id).1 id).2 = [] ∧
        (removeSession (removeSession st id).1 id).1 = (removeSession st id).1) ∧
      (s.Close.1.Close.2 = false ∧ s.Close.1.Close.1 = s.Close.1) ∧
      (removeSession st id).2 = [.closedDone s.tag, .releasedPort s.port] := by
  have h1 : (removeSession st id).1.sessions = deleteSession st.sessions id := by
    unfold removeSession
    rw [hs]
  have h2 : lookupSession (removeSession st id).1.sessions id = none := by
    rw [h1]
    exact lookupSession_deleteSession st.sessions id
  have h3 := removeSession_not_found (removeSession st id).1 id h2
  refine ⟨⟨by rw [h3], by rw [h3]⟩, ?_, ?_⟩
  · unfold Session.Close
    simp [hopen]
  · unfold removeSession
    rw [hs]
    have hfire : s.Close.2 = true := by simp [Session.Close, hopen]
    simp [hfire, hport]

/-- Concrete session used by the C1 and C6 scenarios: a live download
session registered under "abc" on port 50000. -/
def c6Session : Session :=
  { tag := 0, id := "abc", kind := "download", filename := "x.bin", port := 50000,
    doneClosed := false, botStreamClosed := false, userConnClosed := false }

/-- Concrete relay state holding only `c6Session`, its port in the pool's
used-set. -/
def c6State : RelayState :=
  { sessions := [("abc", c6Session)], pool := ⟨50000, 50100, [50000]⟩, nextTag := 1 }

/-- Witness for C6 at the concrete state of one live download session with
port 50000. -/
theorem claim_C6_witness :
    ((removeSession (removeSession c6State "abc").1 "abc").2 = [] ∧
        (removeSession (removeSession c6State "abc").1 "abc").1 =
          (removeSession c6State "abc").1) ∧
      (c6Session.Close.1.Close.2 = false ∧
        c6Session.Close.1.Close.1 = c6Session.Close.1) ∧
      (removeSession c6State "abc").2 =
        [.closedDone c6Session.tag, .releasedPort c6Session.port] :=
  claim_C6_teardown_idempotent c6State "abc" c6Session (by rfl) (by rfl) (by decide)

/-- Claim C9: registering a session under an identifier already present in
the registry deterministically displaces the existing entry: on the
successful path `allocateDCCPort` writes the new Session over the old one
(the registry now maps the identifier to the freshly created Session), emits
no events — in particular it does not fire the old session's cancellation
signal and does not release the old session's port — and the pool's used-set
only grows by the newly allocated port. -/
theorem claim_C9_duplicate_id_displaces (st : RelayState) (rnd : Nat → Nat)
    (id kind filename : String) (old : Session) (port : Nat) (pool' : PortPool)
    (hpresent : lookupSession st.sessions id = some old)
    (halloc : st.pool.allocate rnd = (.ok port, pool')) :
    (allocateDCCPort st rnd id kind filename true).1 = some port ∧
      lookupSession (allocateDCCPort st rnd id kind filename true).2.1.sessions id =
        some (NewSession st.nextTag id kind filename port) ∧
      (allocateDCCPort st rnd id kind filename true).2.2 = [] ∧
      Event.closedDone old.tag ∉ (allocateDCCPort st rnd id kind filename true).2.2 ∧
      Event.releasedPort old.port ∉ (allocateDCCPort st rnd id kind filename true).2.2 ∧
      (allocateDCCPort st rnd id kind filename true).2.1.pool.used =
        port :: st.pool.used := by
  have hused : pool'.used = port :: st.pool.used :=
    (allocLoop_ok_spec st.pool rnd 100 0 port pool' halloc).2.1
  have hwas := hpresent
  clear hwas
  unfold allocateDCCPort
  rw [halloc]
  simp [lookupSession_insertSession, hused]

/-- Concrete pre-state for the C9 witness: a live session already registered
under "abc" holding port 2, pool range `[1, 2]` with port 2 out. -/
def c9Old : Session :=
  { tag := 0, id := "abc", kind := "upload", filename := "", port := 2,
    doneClosed := false, botStreamClosed := false, userConnClosed := false }

/-- Relay state for the C9 witness. -/
def c9State : RelayState :=
  { sessions := [("abc", c9Old)], pool := ⟨1, 2, [2]⟩, nextTag := 5 }

/-- Witness for C9: registering "abc" again displaces `c9Old`; the new
session gets port 1, no event fires, and port 2 stays allocated. -/
theorem claim_C9_witness :
    (allocateDCCPort c9State (fun _ => 0) "abc" "download" "x.bin" true).1 = some 1 ∧
      lookupSession
          (allocateDCCPort c9State (fun _ => 0) "abc" "download" "x.bin" true).2.1.sessions
          "abc" =
        some (NewSession 5 "abc" "download" "x.bin" 1) ∧
      (allocateDCCPort c9State (fun _ => 0) "abc" "download" "x.bin" true).2.2 = [] ∧
      Event.closedDone c9Old.tag ∉
        (allocateDCCPort c9State (fun _ => 0) "abc" "download" "x.bin" true).2.2 ∧
      Event.releasedPort c9Old.port ∉
        (allocateDCCPort c9State (fun _ => 0) "abc" "download" "x.bin" true).2.2 ∧
      (allocateDCCPort c9State (fun _ => 0) "abc" "download" "x.bin" true).2.1.pool.used =
        1 :: PortPool.used ⟨1, 2, [2]⟩ :=
  claim_C9_duplicate_id_displaces c9State (fun _ => 0) "abc" "download" "x.bin"
    c9Old 1 ⟨1, 2, [1, 2]⟩ (by rfl) (by rfl)

/-- Claim C1 evaluated at its failing input: in the state `c6State` (one live
download session "abc" on port 50000), the teardown triggered by the
explicit `MsgEOF` terminal condition of the download relay loop fires the
cancellation signal and closes the bot-stream queue but leaves the session
in the registry and port 50000 in the pool's used-set — contradicting the
claim that every terminal condition's teardown removes the session and
releases the port.  By contrast the DCC accept-failure path, which calls
`removeSession`, performs all three effects. -/
theorem claim_C1_download_teardown_incomplete :
    lookupSession (downloadEOFTeardown c6State "abc").1.sessions "abc" =
        some { c6Session with doneClosed := true, botStreamClosed := true } ∧
      50000 ∈ (downloadEOFTeardown c6State "abc").1.pool.used ∧
      Event.releasedPort 50000 ∉ (downloadEOFTeardown c6State "abc").2 ∧
      Event.closedDone 0 ∈ (downloadEOFTeardown c6State "abc").2 ∧
      (lookupSession (dccAcceptFailTeardown c6State "abc").1.sessions "abc" = none ∧
        50000 ∉ (dccAcceptFailTeardown c6State "abc").1.pool.used ∧
        Event.closedDone 0 ∈ (dccAcceptFailTeardown c6State "abc").2 ∧
        Event.releasedPort 50000 ∈ (dccAcceptFailTeardown c6State "abc").2) := by
  decide


/-! ### ChanReader (session source) and claim C10

The channel is modelled by the list `pending` of chunks still queued, in
send order, with the channel already closed behind them (the claim concerns
a finite sequence of chunks sent before the close); `cur` and `done` are the
reader's fields. -/

/-- State of a `ChanReader` over a closed channel. -/
structure ChanReader where
  pending : List (List Nat)
  cur : List Nat
  done : Bool
  deriving DecidableEq

/-- The body of `ChanReader.Read` with a destination buffer of capacity
`cap`, unrolled over the channel contents: while the current chunk is empty
and the reader is not done, receive the next chunk; receiving from the
exhausted closed channel sets `done` and returns `io.EOF` (the `true`
flag); with `done` set and no bytes left every call returns `io.EOF`;
otherwise copy `min cap cur.length` bytes out of the current chunk. -/
def readAux (cap : Nat) : List (List Nat) → List Nat → Bool →
    (List Nat × Bool) × ChanReader
  | [], cur, done =>
    if cur.isEmpty && !done then (([], true), ⟨[], [], true⟩)
    else if cur.isEmpty then (([], true), ⟨[], cur, done⟩)
    else ((cur.take cap, false), ⟨[], cur.drop cap, done⟩)
  | d :: rest, cur, done =>
    if cur.isEmpty && !done then readAux cap rest d done
    else if cur.isEmpty then (([], true), ⟨d :: rest, cur, done⟩)
    else ((cur.take cap, false), ⟨d :: rest, cur.drop cap, done⟩)

/-- Model of `ChanReader.Read` on the modelled state. -/
def ChanReader.read (cap : Nat) (c : ChanReader) : (List Nat × Bool) × ChanReader :=
  readAux cap c.pending c.cur c.done

/-- Successive `Read` calls, at most `fuel` of them, stopping at the first
`io.EOF`; returns the concatenation of everything read plus the final
reader state. -/
def drainFrom (cap : Nat) : Nat → ChanReader → List Nat × ChanReader
  | 0, c => ([], c)
  | fuel + 1, c =>
    match ChanReader.read cap c with
    | ((_, true), c') => ([], c')
    | ((bs, false), c') =>
      let r := drainFrom cap fuel c'
      (bs ++ r.1, r.2)

theorem readAux_empty_spec (cap : Nat) :
    ∀ pending cur, cur ++ pending.flatten = ([] : List Nat) →
      readAux cap pending cur false = (([], true), ⟨[], [], true⟩) := by
  intro pending
  induction pending with
  | nil =>
    intro cur h
    have hcur : cur = [] := by simpa using h
    subst hcur
    rfl
  | cons d rest ih =>
    intro cur h
    rw [List.flatten_cons] at h
    have hcur : cur = [] := (List.append_eq_nil.mp h).1
    have hdrest : d ++ rest.flatten = [] := (List.append_eq_nil.mp h).2
    subst hcur
    exact ih d hdrest

theorem readAux_nonempty_spec (cap : Nat) (hcap : 0 < cap) :
    ∀ pending cur, cur ++ pending.flatten ≠ ([] : List Nat) →
      ∃ bs pending2 cur2,
        readAux cap pending cur false = ((bs, false), ⟨pending2, cur2, false⟩) ∧
          bs ≠ [] ∧ bs ++ (cur2 ++ pending2.flatten) = cur ++ pending.flatten := by
  intro pending
  induction pending with
  | nil =>
    intro cur h
    rw [List.flatten_nil, List.append_nil] at h
    have hne : cur.isEmpty = false := by
      cases cur with
      | nil => exact absurd rfl h
      | cons a t => rfl
    refine ⟨cur.take cap, [], cur.drop cap, ?_, ?_, ?_⟩
    · simp [readAux, hne]
    · intro htake
      rcases List.take_eq_nil_iff.mp htake with h0 | h0
      · omega
      · exact h h0
    · simp [List.take_append_drop]
  | cons d rest ih =>
    intro cur h
    by_cases hcur : cur = []
    · subst hcur
      rw [List.nil_append, List.flatten_cons] at h
      obtain ⟨bs, p2, c2, hread, hbs, hjoin⟩ := ih d h
      refine ⟨bs, p2, c2, ?_, hbs, ?_⟩
      · simpa [readAux] using hread
      · rw [List.nil_append, List.flatten_cons]
        exact hjoin
    · have hne : cur.isEmpty = false := by
        cases cur with
        | nil => exact absurd rfl hcur
        | cons a t => rfl
      refine ⟨cur.take cap, d :: rest, cur.drop cap, ?_, ?_, ?_⟩
      · simp [readAux, hne]
      · intro htake
        rcases List.take_eq_nil_iff.mp htake with h0 | h0
        · omega
        · exact hcur h0
      · rw [← List.append_assoc, List.take_append_drop]

theorem drainFrom_spec (cap : Nat) (hcap : 0 < cap) :
    ∀ fuel pending cur, (cur ++ pending.flatten).length < fuel →
      drainFrom cap fuel ⟨pending, cur, false⟩ =
        (cur ++ pending.flatten, ⟨[], [], true⟩) := by
  intro fuel
  induction fuel with
  | zero =>
    intro pending cur h
    exact absurd h (Nat.not_lt_zero _)
  | succ n ih =>
    intro pending cur h
    by_cases hne : cur ++ pending.flatten = []
    · have hr : ChanReader.read cap ⟨pending, cur, false⟩ = (([], true), ⟨[], [], true⟩) :=
        readAux_empty_spec cap pending cur hne
      unfold drainFrom
      rw [hr, hne]
    · obtain ⟨bs, p2, c2, hread, hbs, hjoin⟩ :=
        readAux_nonempty_spec cap hcap pending cur hne
      have hr : ChanReader.read cap ⟨pending, cur, false⟩ = ((bs, false), ⟨p2, c2, false⟩) :=
        hread
      have hlen2 : (c2 ++ p2.flatten).length < n := by
        have hlenj : bs.length + (c2.length + p2.flatten.length) =
            cur.length + pending.flatten.length := by
          have hc := congrArg List.length hjoin
          simpa [List.length_append] using hc
        have hpos : 0 < bs.length := List.length_pos.mpr hbs
        have h' : cur.length + pending.flatten.length < n + 1 := by
          simpa [List.length_append] using h
        simp only [List.length_append]
        omega
      unfold drainFrom
      rw [hr]
      simp only []
      rw [ih p2 c2 hlen2]
      simp only []
      rw [hjoin]

/-- Claim C10: for every finite sequence of byte chunks sent on the channel
before it is closed, successive `ChanReader.Read` calls (with any positive
buffer capacity, within any sufficient fuel bound) return exactly the
concatenation of the chunks in order — no loss, reordering or duplication —
ending in the drained `done` state; and once the channel is closed and all
chunks are consumed, every further `Read` returns no bytes and `io.EOF`,
leaving the state unchanged. -/
theorem claim_C10_chanReader_stream (chunks : List (List Nat)) (cap fuel : Nat)
    (hcap : 0 < cap) (hfuel : chunks.flatten.length < fuel) :
    drainFrom cap fuel ⟨chunks, [], false⟩ = (chunks.flatten, ⟨[], [], true⟩) ∧
      ChanReader.read cap ⟨[], [], true⟩ = (([], true), ⟨[], [], true⟩) := by
  constructor
  · have h := drainFrom_spec cap hcap fuel chunks [] (by simpa using hfuel)
    simpa using h
  · rfl

/-- Witness for C10: chunks `[1,2]`, `[]`, `[3]` (an empty chunk in the
middle), capacity 1, fuel 5: the reads deliver `[1, 2, 3]` and the drained
reader keeps answering `io.EOF`. -/
theorem claim_C10_witness :
    0 < 1 ∧ ([[1, 2], [], [3]] : List (List Nat)).flatten.length < 5 ∧
      (drainFrom 1 5 ⟨[[1, 2], [], [3]], [], false⟩ =
          (([[1, 2], [], [3]] : List (List Nat)).flatten, ⟨[], [], true⟩) ∧
        ChanReader.read 1 ⟨[], [], true⟩ = (([], true), ⟨[], [], true⟩)) :=
  ⟨by decide, by decide,
    claim_C10_chanReader_stream [[1, 2], [], [3]] 1 5 (by decide) (by decide)⟩
